/-
Verification of the fulfillment-cost pipeline of the invoice_prep
repository against its natural-language specification.

The development shallowly embeds the three duplicated implementations of
the pipeline:
  * `calculate_costs` — src/src/app/calculator_logic.py (the fullest
    variant: status filter, SKU exclusion, date filtering with an
    order-level restore, grouping, tariff formula, totals);
  * `dateStageRoot` — the date-filter stage of src/calculator_logic.py
    (line-item granularity);
  * `inRangeWeb` — the date-range predicate of src/app.py (which parses
    the end date without the 23:59:59 end-of-day adjustment).

Modelling conventions:
  * a pandas row is a `Row`; a missing (NaN) cell of the string column
    `Lineitem sku` is `Option.none`;
  * `Fulfilled at` is carried as the result of `pd.to_datetime(...,
    errors='coerce')`: `none` is NaT (absent or unparsable), `some t` is
    a timezone-normalized timestamp measured in whole seconds, so that a
    calendar day `d` spans `[d*86400, d*86400+86399]`;
  * Python float arithmetic is idealized as exact rational arithmetic,
    and Python's `round(x, 2)` as round-half-to-even on rationals;
  * the optional `start_date_str` / `end_date_str` arguments are `PyStr`
    values: `none` (Python None), `empty` (the empty string, falsy),
    `date d` (a parsable date string denoting calendar day `d`), or a
    non-empty unparsable string (`bad`, which raises inside the date
    branch and is reported via the generic exception handler).
-/
import Mathlib

namespace InvoicePrep

/-- One input line item, as read from the CSV (`Row Model` of the spec). -/
structure Row where
  name : String
  fulfillmentStatus : String
  sku : Option String
  lineitemName : String
  quantity : Nat
  fulfilledAt : Option Int
deriving DecidableEq

/-- Tariff parameters of one run (floats in the source, idealized as ℚ). -/
structure Config where
  first_sku_cost : ℚ
  next_sku_cost : ℚ
  unit_cost : ℚ
deriving DecidableEq

/-- Constant `EUR_TO_BGN_RATE = 1.95583` from calculator_logic.py. -/
def EUR_TO_BGN_RATE : ℚ := 195583 / 100000

/-- A Python optional-string date argument, abstracted by its parse result. -/
inductive PyStr where
  | none
  | empty
  | date (day : Int)
  | bad
deriving DecidableEq

/-- Python truthiness of the argument: `None` and `""` are falsy. -/
def PyStr.truthy : PyStr → Bool
  | .none => false
  | .empty => false
  | .date _ => true
  | .bad => true

/-- The day number `pd.Timestamp(s)` yields, when `s` parses. -/
def PyStr.day? : PyStr → Option Int
  | .date d => some d
  | _ => Option.none

/-- One entry of `order_summaries` (`OrderSummary` of the spec). -/
structure OrderSummary where
  name : String
  uniqueSkus : Nat
  totalUnits : Nat
  costBgn : ℚ
deriving DecidableEq

/-- The `totals` dictionary of a successful run. -/
structure Totals where
  processed_orders_count : Nat
  total_units : Nat
  total_cost_bgn : ℚ
  total_cost_eur : ℚ
deriving DecidableEq

/-- Result of `calculate_costs`: either `{'error': msg}` or the success
dictionary (totals, order_summary_df, line_item_df).  The line-item table
is kept as the surviving rows themselves; the source merely projects and
renames display columns. -/
inductive RunResult where
  | error (msg : String)
  | ok (totals : Totals) (summaries : List OrderSummary) (lineItems : List Row)
deriving DecidableEq

/-- The input table: its column names plus its rows.  Rows are typed; the
column list is what the validator inspects. -/
structure Table where
  cols : List String
  rows : List Row
deriving DecidableEq

/-- List `required_columns` of src/src/app/calculator_logic.py line 18. -/
def required_columns : List String :=
  ["Fulfillment Status", "Name", "Lineitem quantity", "Lineitem sku",
   "Lineitem name", "Fulfilled at"]

/-- The validator loop (lines 19–21): return the first required column
absent from the table, scanning `required_columns` in order. -/
def firstMissingAux (cols : List String) : List String → Option String
  | [] => Option.none
  | c :: rest => if cols.contains c then firstMissingAux cols rest else some c

/-- First missing required column of a table, if any. -/
def firstMissing (cols : List String) : Option String :=
  firstMissingAux cols required_columns

/-- Status filter (line 24): keep rows with status exactly `"fulfilled"`. -/
def statusFilter (rows : List Row) : List Row :=
  rows.filter (fun r => r.fulfillmentStatus == "fulfilled")

/-- Test `fulfilled_df['Lineitem sku'].isin(excluded_skus)` on one row: exact
string membership; a NaN sku is in no list. -/
def skuIsIn (sku : Option String) (excluded : List String) : Bool :=
  match sku with
  | Option.none => false
  | some s => excluded.contains s

/-- SKU exclusion stage (lines 27–28); the filter is only applied when the
user-supplied list is non-empty, exactly as in the source. -/
def skuFilter (excluded : List String) (rows : List Row) : List Row :=
  if excluded.isEmpty then rows
  else rows.filter (fun r => !(skuIsIn r.sku excluded))

/-- Whole-day-inclusive range test of both calculator_logic.py variants:
`start ≤ t ≤ end.replace(hour=23, minute=59, second=59)`. -/
def inRange (startDay endDay t : Int) : Bool :=
  decide (startDay * 86400 ≤ t) && decide (t ≤ endDay * 86400 + 86399)

/-- Range test of src/app.py lines 45–47: the end bound is
`datetime.strptime(end_date_str, '%Y-%m-%d')`, i.e. midnight at the START
of the end day — no 23:59:59 adjustment. -/
def inRangeWeb (startDay endDay t : Int) : Bool :=
  decide (startDay * 86400 ≤ t) && decide (t ≤ endDay * 86400)

/-- Does this row carry a parseable `Fulfilled at` timestamp inside the
range?  (NaT rows fail.) -/
def rowInRange (startDay endDay : Int) (r : Row) : Bool :=
  match r.fulfilledAt with
  | Option.none => false
  | some t => inRange startDay endDay t

/-- Date stage of src/calculator_logic.py lines 21–35: drop NaT rows, then
keep exactly the rows whose own timestamp is in range (line-item
granularity). -/
def dateStageRoot (startDay endDay : Int) (rows : List Row) : List Row :=
  (rows.filter (fun r => r.fulfilledAt.isSome)).filter (rowInRange startDay endDay)

/-- Date stage of src/src/app/calculator_logic.py lines 32–54: compute the
in-range parseable rows, collect their order names, then keep EVERY row of
`fulfilled_df` whose order name occurs among them (order-level restore).
If no row has a parseable date the frame is emptied. -/
def dateStage (startDay endDay : Int) (rows : List Row) : List Row :=
  let parsed := rows.filter (fun r => r.fulfilledAt.isSome)
  if parsed.isEmpty then []
  else
    let inR := parsed.filter (rowInRange startDay endDay)
    let validNames := inR.map (fun r => r.name)
    rows.filter (fun r => validNames.contains r.name)

/-- Distinct values of a list, first occurrence kept (used for grouping
keys and for pandas `nunique`). -/
def uniqueKeys : List String → List String
  | [] => []
  | a :: l => a :: (uniqueKeys l).filter (fun b => b ≠ a)

/-- The group of rows of one order: `fulfilled_df.groupby('Name')`. -/
def groupRows (rows : List Row) (nm : String) : List Row :=
  rows.filter (fun r => r.name == nm)

/-- Count `order_group['Lineitem sku'].nunique()`: pandas drops NaN before
counting distinct values. -/
def nunique (g : List Row) : Nat :=
  (uniqueKeys (g.filterMap (fun r => r.sku))).length

/-- Sum `order_group['Lineitem quantity'].sum()`. -/
def orderUnits (g : List Row) : Nat :=
  (g.map (fun r => r.quantity)).sum

/-- The tariff formula of lines 69–74. -/
def orderCost (cfg : Config) (n q : Nat) : ℚ :=
  let c : ℚ := 0
  let c := if 0 < n then c + cfg.first_sku_cost else c
  let c := if 1 < n then c + ((n - 1 : Nat) : ℚ) * cfg.next_sku_cost else c
  c + (q : ℚ) * cfg.unit_cost

/-- Round a rational to the nearest integer, ties to even (Python's
`round` on our exact-arithmetic idealization of floats). -/
def rhe (q : ℚ) : Int :=
  if q - ⌊q⌋ < 1 / 2 then ⌊q⌋
  else if 1 / 2 < q - ⌊q⌋ then ⌊q⌋ + 1
  else if ⌊q⌋ % 2 = 0 then ⌊q⌋ else ⌊q⌋ + 1

/-- Python's `round(x, 2)`. -/
def round2 (q : ℚ) : ℚ := (rhe (q * 100) : ℚ) / 100

/-- The summary dictionary built for one group by the loop body of
lines 65–81. -/
def summaryOf (cfg : Config) (rows : List Row) (nm : String) : OrderSummary :=
  let g := groupRows rows nm
  { name := nm
    uniqueSkus := nunique g
    totalUnits := orderUnits g
    costBgn := round2 (orderCost cfg (nunique g) (orderUnits g)) }

/-- One pass of the aggregation loop (lines 65–81), emitting one summary
per distinct order name of the surviving rows. -/
def orderSummaries (cfg : Config) (rows : List Row) : List OrderSummary :=
  (uniqueKeys (rows.map (fun r => r.name))).map (summaryOf cfg rows)

/-- The `totals` block of lines 86–94: sum the already-rounded per-order
costs, round the sum, and convert to EUR. -/
def mkTotals (sums : List OrderSummary) : Totals :=
  let tc := (sums.map (fun s => s.costBgn)).sum
  { processed_orders_count := sums.length
    total_units := (sums.map (fun s => s.totalUnits)).sum
    total_cost_bgn := round2 tc
    total_cost_eur := round2 (tc / EUR_TO_BGN_RATE) }

/-- The tail of `calculate_costs` after filtering: the empty-frame early
return of lines 56–60, else aggregation and totals. -/
def finishCalc (cfg : Config) (fulfilled : List Row) : RunResult :=
  if fulfilled.isEmpty then
    .ok ⟨0, 0, 0, 0⟩ [] []
  else
    let sums := orderSummaries cfg fulfilled
    .ok (mkTotals sums) sums fulfilled

/-- Function `calculate_costs` of src/src/app/calculator_logic.py.  The CSV has
already been parsed into a `Table`; `excluded` is the user-supplied
excluded-SKU list (`None`
and `[]` coincide: the source replaces `None` by `[]`). -/
def calculate_costs (cfg : Config) (startDateStr endDateStr : PyStr)
    (excluded : List String) (input : Table) : RunResult :=
  match firstMissing input.cols with
  | some c => .error ("Missing required column: " ++ c)
  | Option.none =>
    let fulfilled := statusFilter input.rows
    let fulfilled := skuFilter excluded fulfilled
    if startDateStr.truthy && endDateStr.truthy then
      let parsed := fulfilled.filter (fun r => r.fulfilledAt.isSome)
      if parsed.isEmpty then finishCalc cfg []
      else
        match startDateStr.day?, endDateStr.day? with
        | some s, some e => finishCalc cfg (dateStage s e fulfilled)
        | _, _ => .error "An unexpected error occurred: unparsable date string"
    else
      finishCalc cfg fulfilled

/-- The row set the aggregation stage actually receives, for a run whose
date arguments are absent, falsy, or parse successfully. -/
def effectiveRows (sd ed : PyStr) (excluded : List String) (rows : List Row) :
    List Row :=
  let f := skuFilter excluded (statusFilter rows)
  if sd.truthy && ed.truthy then
    match sd.day?, ed.day? with
    | some s, some e => dateStage s e f
    | _, _ => []
  else f

/-! ### Basic facts about the grouping key list -/

/-- Membership in the distinct-key list is membership in the source list. -/
theorem mem_uniqueKeys {a : String} : ∀ {l : List String}, a ∈ uniqueKeys l ↔ a ∈ l
  | [] => by simp [uniqueKeys]
  | b :: l => by
    by_cases h : a = b
    · simp [uniqueKeys, h]
    · simp [uniqueKeys, List.mem_filter, h, mem_uniqueKeys (l := l)]

/-- The distinct-key list has no duplicates. -/
theorem nodup_uniqueKeys : ∀ l : List String, (uniqueKeys l).Nodup
  | [] => List.nodup_nil
  | b :: l => by
    refine List.nodup_cons.mpr ⟨?_, (nodup_uniqueKeys l).filter _⟩
    intro hb
    rcases List.mem_filter.mp hb with ⟨-, hne⟩
    simp at hne

/-- Distinct keys, seen as a finite set, are the elements of the list. -/
theorem toFinset_uniqueKeys (l : List String) :
    (uniqueKeys l).toFinset = l.toFinset := by
  ext x
  simp [List.mem_toFinset, mem_uniqueKeys]

/-- The number of distinct keys is the cardinality of the element set. -/
theorem length_uniqueKeys (l : List String) :
    (uniqueKeys l).length = l.toFinset.card := by
  rw [← toFinset_uniqueKeys l, List.toFinset_card_of_nodup (nodup_uniqueKeys l)]

/-- A sub-collection has at most as many distinct keys. -/
theorem length_uniqueKeys_mono {l₁ l₂ : List String} (h : l₁ ⊆ l₂) :
    (uniqueKeys l₁).length ≤ (uniqueKeys l₂).length := by
  rw [length_uniqueKeys, length_uniqueKeys]
  refine Finset.card_le_card ?_
  intro x hx
  rw [List.mem_toFinset] at hx ⊢
  exact h hx

/-! ### Facts about round-half-to-even rounding -/

/-- Rounding never goes below the floor. -/
theorem floor_le_rhe (q : ℚ) : ⌊q⌋ ≤ rhe q := by
  unfold rhe
  split_ifs <;> omega

/-- Rounding never exceeds the floor plus one. -/
theorem rhe_le_floor_add_one (q : ℚ) : rhe q ≤ ⌊q⌋ + 1 := by
  unfold rhe
  split_ifs <;> omega

/-- Round-half-to-even is monotone. -/
theorem rhe_mono {x y : ℚ} (h : x ≤ y) : rhe x ≤ rhe y := by
  rcases lt_or_le ⌊x⌋ ⌊y⌋ with hf | hf
  · calc rhe x ≤ ⌊x⌋ + 1 := rhe_le_floor_add_one x
    _ ≤ ⌊y⌋ := by omega
    _ ≤ rhe y := floor_le_rhe y
  · have hfe : ⌊x⌋ = ⌊y⌋ := le_antisymm (Int.floor_mono h) hf
    unfold rhe
    rw [hfe]
    split_ifs <;> first | omega | linarith

/-- Rounding a non-negative rational is non-negative. -/
theorem rhe_nonneg {q : ℚ} (h : 0 ≤ q) : 0 ≤ rhe q := by
  have h0 : (0 : ℤ) ≤ ⌊q⌋ := Int.le_floor.mpr (by simpa)
  have := floor_le_rhe q
  omega

/-- Two-decimal rounding is monotone. -/
theorem round2_mono {x y : ℚ} (h : x ≤ y) : round2 x ≤ round2 y := by
  unfold round2
  have : rhe (x * 100) ≤ rhe (y * 100) := rhe_mono (by linarith)
  have hc : ((rhe (x * 100) : ℚ)) ≤ ((rhe (y * 100) : ℚ)) := by exact_mod_cast this
  linarith

/-- Two-decimal rounding preserves non-negativity. -/
theorem round2_nonneg {q : ℚ} (h : 0 ≤ q) : 0 ≤ round2 q := by
  unfold round2
  have : (0 : ℤ) ≤ rhe (q * 100) := rhe_nonneg (by linarith)
  have hc : (0 : ℚ) ≤ (rhe (q * 100) : ℚ) := by exact_mod_cast this
  linarith

/-- Rounding fixes zero. -/
theorem round2_zero : round2 0 = 0 := by
  norm_num [round2, rhe]

/-! ### Facts about the tariff formula -/

/-- Closed form of the accumulating cost computation. -/
theorem orderCost_def (cfg : Config) (n q : Nat) :
    orderCost cfg n q
      = (if 0 < n then cfg.first_sku_cost else 0)
        + (if 1 < n then ((n - 1 : Nat) : ℚ) * cfg.next_sku_cost else 0)
        + (q : ℚ) * cfg.unit_cost := by
  unfold orderCost
  dsimp only
  split_ifs <;> ring

/-- With non-negative tariffs, every order cost is non-negative. -/
theorem orderCost_nonneg {cfg : Config} (h1 : 0 ≤ cfg.first_sku_cost)
    (h2 : 0 ≤ cfg.next_sku_cost) (h3 : 0 ≤ cfg.unit_cost) (n q : Nat) :
    0 ≤ orderCost cfg n q := by
  rw [orderCost_def]
  have hq : (0 : ℚ) ≤ (q : ℚ) := by positivity
  have hn : (0 : ℚ) ≤ ((n - 1 : Nat) : ℚ) := by positivity
  split_ifs <;> nlinarith

/-- With non-negative tariffs, the cost formula is monotone in the
distinct-SKU count and the total units. -/
theorem orderCost_mono {cfg : Config} (h1 : 0 ≤ cfg.first_sku_cost)
    (h2 : 0 ≤ cfg.next_sku_cost) (h3 : 0 ≤ cfg.unit_cost)
    {n' n q' q : Nat} (hn : n' ≤ n) (hq : q' ≤ q) :
    orderCost cfg n' q' ≤ orderCost cfg n q := by
  rw [orderCost_def, orderCost_def]
  have hA : (if 0 < n' then cfg.first_sku_cost else 0)
      ≤ (if 0 < n then cfg.first_sku_cost else 0) := by
    split_ifs <;> linarith
  have hB : (if 1 < n' then ((n' - 1 : Nat) : ℚ) * cfg.next_sku_cost else 0)
      ≤ (if 1 < n then ((n - 1 : Nat) : ℚ) * cfg.next_sku_cost else 0) := by
    have hle : ((n' - 1 : Nat) : ℚ) ≤ ((n - 1 : Nat) : ℚ) := by
      exact_mod_cast Nat.sub_le_sub_right hn 1
    have hpos : (0 : ℚ) ≤ ((n' - 1 : Nat) : ℚ) := by positivity
    split_ifs <;> nlinarith
  have hC : (q' : ℚ) * cfg.unit_cost ≤ (q : ℚ) * cfg.unit_cost := by
    have : (q' : ℚ) ≤ (q : ℚ) := by exact_mod_cast hq
    nlinarith
  linarith

/-! ### Facts about the filtering stages -/

/-- Nothing is `isin` the empty exclusion list. -/
theorem skuIsIn_nil (sku : Option String) : skuIsIn sku [] = false := by
  cases sku <;> rfl

/-- The `isin` test, as a membership proposition. -/
theorem skuIsIn_iff (sku : Option String) (excluded : List String) :
    skuIsIn sku excluded = true ↔ ∃ s, sku = some s ∧ s ∈ excluded := by
  cases sku with
  | none => simp [skuIsIn]
  | some s => simp [skuIsIn, List.elem_iff]

/-- The skipped-when-empty exclusion stage coincides with an unconditional
filter. -/
theorem skuFilter_eq (excluded : List String) (rows : List Row) :
    skuFilter excluded rows = rows.filter (fun r => !(skuIsIn r.sku excluded)) := by
  unfold skuFilter
  split_ifs with h
  · rw [List.isEmpty_iff] at h
    subst h
    rw [List.filter_eq_self.mpr]
    intro a _
    rw [skuIsIn_nil]
    rfl
  · rfl

/-- Membership in the exclusion stage's output. -/
theorem mem_skuFilter {r : Row} {excluded : List String} {rows : List Row} :
    r ∈ skuFilter excluded rows ↔ r ∈ rows ∧ skuIsIn r.sku excluded = false := by
  rw [skuFilter_eq, List.mem_filter, Bool.not_eq_true']

/-- The exclusion stage only removes rows. -/
theorem skuFilter_sublist (excluded : List String) (rows : List Row) :
    List.Sublist (skuFilter excluded rows) rows := by
  rw [skuFilter_eq]
  exact List.filter_sublist rows

/-- Enlarging the exclusion list only removes more rows. -/
theorem skuFilter_mono {E E' : List String} (hE : ∀ s ∈ E, s ∈ E')
    (rows : List Row) :
    List.Sublist (skuFilter E' rows) (skuFilter E rows) := by
  rw [skuFilter_eq, skuFilter_eq]
  refine List.monotone_filter_right rows ?_
  intro r h
  rw [Bool.not_eq_true'] at h ⊢
  cases hmem : skuIsIn r.sku E
  · rfl
  · exfalso
    rcases (skuIsIn_iff _ _).mp hmem with ⟨s, hs, hsE⟩
    have h' : skuIsIn r.sku E' = true := (skuIsIn_iff _ _).mpr ⟨s, hs, hE s hsE⟩
    rw [h'] at h
    cases h

/-- An in-range row has a parseable date. -/
theorem rowInRange_isSome {s e : Int} {r : Row} (h : rowInRange s e r = true) :
    r.fulfilledAt.isSome = true := by
  unfold rowInRange at h
  rcases hf : r.fulfilledAt with _ | t
  · rw [hf] at h
    cases h
  · rfl

/-- If no row of the frame has a parseable date, the date stage empties
the frame. -/
theorem dateStage_of_no_parsed {s e : Int} {rows : List Row}
    (h : (rows.filter (fun r => r.fulfilledAt.isSome)).isEmpty = true) :
    dateStage s e rows = [] := by
  unfold dateStage
  dsimp only
  rw [if_pos h]

/-- Membership in the date stage's output (src/src/app variant): a row
survives exactly when SOME row of its order — not necessarily itself — is
parseable and in range. -/
theorem mem_dateStage {s e : Int} {r : Row} {rows : List Row} :
    r ∈ dateStage s e rows
      ↔ r ∈ rows ∧ ∃ r' ∈ rows, r'.name = r.name ∧ rowInRange s e r' = true := by
  unfold dateStage
  dsimp only
  split_ifs with h
  · rw [List.isEmpty_iff] at h
    simp only [List.not_mem_nil, false_iff]
    rintro ⟨-, r', hr', -, hir⟩
    have : r' ∈ rows.filter (fun r => r.fulfilledAt.isSome) :=
      List.mem_filter.mpr ⟨hr', rowInRange_isSome hir⟩
    rw [h] at this
    cases this
  · rw [List.mem_filter]
    constructor
    · rintro ⟨hr, hc⟩
      refine ⟨hr, ?_⟩
      rw [List.elem_iff] at hc
      rcases List.mem_map.mp hc with ⟨r', hr', hname⟩
      rcases List.mem_filter.mp hr' with ⟨hr'f, hir⟩
      exact ⟨r', (List.mem_filter.mp hr'f).1, hname, hir⟩
    · rintro ⟨hr, r', hr', hname, hir⟩
      refine ⟨hr, ?_⟩
      rw [List.elem_iff]
      refine List.mem_map.mpr ⟨r', ?_, hname⟩
      exact List.mem_filter.mpr
        ⟨List.mem_filter.mpr ⟨hr', rowInRange_isSome hir⟩, hir⟩

/-- The date stage only removes rows. -/
theorem dateStage_sublist (s e : Int) (rows : List Row) :
    List.Sublist (dateStage s e rows) rows := by
  unfold dateStage
  dsimp only
  split_ifs
  · exact List.nil_sublist rows
  · exact List.filter_sublist rows

/-- The date stage is monotone with respect to shrinking its input. -/
theorem dateStage_mono {s e : Int} {rows' rows : List Row}
    (h : List.Sublist rows' rows) :
    List.Sublist (dateStage s e rows') (dateStage s e rows) := by
  unfold dateStage
  dsimp only
  split_ifs with h1 h2 h2
  · exact List.Sublist.refl []
  · exact List.nil_sublist _
  · exfalso
    rw [List.isEmpty_iff] at h1 h2
    have hps : List.Sublist (rows'.filter (fun r => r.fulfilledAt.isSome))
        (rows.filter (fun r => r.fulfilledAt.isSome)) := h.filter _
    rw [h2] at hps
    exact h1 (List.sublist_nil.mp hps)
  · refine List.Sublist.trans
      (List.monotone_filter_right rows' ?_) (h.filter _)
    intro r hc
    rw [List.elem_iff] at hc ⊢
    rcases List.mem_map.mp hc with ⟨r', hr', hname⟩
    refine List.mem_map.mpr ⟨r', ?_, hname⟩
    exact ((h.filter _).filter _).subset hr'

/-- The status filter only removes rows. -/
theorem statusFilter_sublist (rows : List Row) :
    List.Sublist (statusFilter rows) rows :=
  List.filter_sublist rows

/-- The effective row set is part of the raw row set. -/
theorem effectiveRows_sublist (sd ed : PyStr) (excluded : List String)
    (rows : List Row) :
    List.Sublist (effectiveRows sd ed excluded rows) rows := by
  have hf : List.Sublist (skuFilter excluded (statusFilter rows)) rows :=
    (skuFilter_sublist excluded _).trans (statusFilter_sublist rows)
  unfold effectiveRows
  split_ifs
  · rcases sd.day? with _ | s
    · exact List.nil_sublist rows
    · rcases ed.day? with _ | e
      · exact List.nil_sublist rows
      · exact (dateStage_sublist s e _).trans hf
  · exact hf

/-- Enlarging the exclusion list shrinks the effective row set. -/
theorem effectiveRows_mono {E E' : List String} (hE : ∀ s ∈ E, s ∈ E')
    (sd ed : PyStr) (rows : List Row) :
    List.Sublist (effectiveRows sd ed E' rows) (effectiveRows sd ed E rows) := by
  have hf : List.Sublist (skuFilter E' (statusFilter rows))
      (skuFilter E (statusFilter rows)) := skuFilter_mono hE _
  unfold effectiveRows
  split_ifs
  · rcases sd.day? with _ | s
    · exact List.Sublist.refl []
    · rcases ed.day? with _ | e
      · exact List.Sublist.refl []
      · exact dateStage_mono hf
  · exact hf

/-- The aggregation tail never fails, and its empty-frame early return is
the same success value the general path produces on an empty frame. -/
theorem finishCalc_eq (cfg : Config) (rows : List Row) :
    finishCalc cfg rows
      = .ok (mkTotals (orderSummaries cfg rows)) (orderSummaries cfg rows) rows := by
  unfold finishCalc
  split_ifs with h
  · rw [List.isEmpty_iff] at h
    subst h
    have h1 : orderSummaries cfg [] = [] := rfl
    rw [h1]
    have h2 : mkTotals [] = ⟨0, 0, 0, 0⟩ := by
      simp [mkTotals, round2_zero]
    rw [h2]
  · rfl

/-- With a falsy date argument the date branch is skipped entirely. -/
theorem calc_guard_false {cfg : Config} {excl : List String} {input : Table}
    (hm : firstMissing input.cols = Option.none) {sd ed : PyStr}
    (hg : (sd.truthy && ed.truthy) = false) :
    calculate_costs cfg sd ed excl input
      = finishCalc cfg (skuFilter excl (statusFilter input.rows)) := by
  unfold calculate_costs
  rw [hm, hg]
  simp

/-- With two parsable date arguments the run aggregates the date-stage
output (the emptiness shortcut included). -/
theorem calc_dates {cfg : Config} {excl : List String} {input : Table}
    (hm : firstMissing input.cols = Option.none) (ds de : Int) :
    calculate_costs cfg (.date ds) (.date de) excl input
      = finishCalc cfg
          (dateStage ds de (skuFilter excl (statusFilter input.rows))) := by
  unfold calculate_costs
  rw [hm]
  simp only [PyStr.truthy, PyStr.day?, Bool.and_self, if_true]
  split_ifs with hp
  · rw [dateStage_of_no_parsed hp]
  · rfl

/-- The effective row set of a run with a falsy date argument. -/
theorem effectiveRows_guard_false {sd ed : PyStr}
    (hg : (sd.truthy && ed.truthy) = false) (excl : List String)
    (rows : List Row) :
    effectiveRows sd ed excl rows = skuFilter excl (statusFilter rows) := by
  unfold effectiveRows
  rw [hg]
  simp

/-- Any successful run passed its column check and is the aggregation of
its effective row set. -/
theorem calc_ok_eq {cfg : Config} {sd ed : PyStr} {excl : List String}
    {input : Table} {t0 : Totals} {s0 : List OrderSummary} {l0 : List Row}
    (h : calculate_costs cfg sd ed excl input = .ok t0 s0 l0) :
    firstMissing input.cols = Option.none ∧
      calculate_costs cfg sd ed excl input
        = finishCalc cfg (effectiveRows sd ed excl input.rows) := by
  rcases hm : firstMissing input.cols with _ | c
  · refine ⟨rfl, ?_⟩
    by_cases hg : (sd.truthy && ed.truthy) = true
    · rcases sd with _ | _ | ds | _ <;> rcases ed with _ | _ | de | _ <;>
          simp only [PyStr.truthy, Bool.false_and, Bool.and_false,
            Bool.true_and, Bool.and_true, Bool.false_eq_true] at hg
      · rw [calc_dates hm ds de]
        rfl
      · unfold calculate_costs at h ⊢
        rw [hm] at h ⊢
        simp only [PyStr.truthy, PyStr.day?, Bool.and_self, if_true] at h ⊢
        unfold effectiveRows
        simp only [PyStr.truthy, PyStr.day?, Bool.and_self, if_true]
        split_ifs at h ⊢ with hp
        all_goals rfl
      · unfold calculate_costs at h ⊢
        rw [hm] at h ⊢
        simp only [PyStr.truthy, PyStr.day?, Bool.and_self, if_true] at h ⊢
        unfold effectiveRows
        simp only [PyStr.truthy, PyStr.day?, Bool.and_self, if_true]
        split_ifs at h ⊢ with hp
        all_goals rfl
      · unfold calculate_costs at h ⊢
        rw [hm] at h ⊢
        simp only [PyStr.truthy, PyStr.day?, Bool.and_self, if_true] at h ⊢
        unfold effectiveRows
        simp only [PyStr.truthy, PyStr.day?, Bool.and_self, if_true]
        split_ifs at h ⊢ with hp
        all_goals rfl
    · have hg' : (sd.truthy && ed.truthy) = false := by
        cases hb : (sd.truthy && ed.truthy)
        · rfl
        · exact absurd hb hg
      rw [calc_guard_false hm hg', effectiveRows_guard_false hg']
  · unfold calculate_costs at h
    rw [hm] at h
    cases h

/-! ### The aggregation stage as a sum over the set of order names -/

/-- A sum over the emitted summaries is a finite sum over the set of
surviving order names. -/
theorem summaries_map_sum {M : Type} [AddCommMonoid M] (cfg : Config)
    (rows : List Row) (f : OrderSummary → M) :
    ((orderSummaries cfg rows).map f).sum
      = ∑ nm ∈ (rows.map (fun r => r.name)).toFinset,
          f (summaryOf cfg rows nm) := by
  unfold orderSummaries
  rw [List.map_map, ← toFinset_uniqueKeys (rows.map fun r => r.name),
    List.sum_toFinset _ (nodup_uniqueKeys _)]
  rfl

/-- Shrinking the row set shrinks every order's group. -/
theorem groupRows_mono {rows' rows : List Row} (h : List.Sublist rows' rows)
    (nm : String) :
    List.Sublist (groupRows rows' nm) (groupRows rows nm) :=
  h.filter _

/-- Shrinking a group cannot increase its distinct-SKU count. -/
theorem nunique_mono {g' g : List Row} (h : List.Sublist g' g) :
    nunique g' ≤ nunique g := by
  unfold nunique
  refine length_uniqueKeys_mono ?_
  intro x hx
  rcases List.mem_filterMap.mp hx with ⟨r, hr, hfr⟩
  exact List.mem_filterMap.mpr ⟨r, h.subset hr, hfr⟩

/-- Shrinking a group cannot increase its unit total. -/
theorem orderUnits_mono {g' g : List Row} (h : List.Sublist g' g) :
    orderUnits g' ≤ orderUnits g :=
  List.Sublist.sum_le_sum (h.map _) (fun b _ => Nat.zero_le b)

/-- The grand unit total, as a sum over order names. -/
theorem mkTotals_units (cfg : Config) (rows : List Row) :
    (mkTotals (orderSummaries cfg rows)).total_units
      = ∑ nm ∈ (rows.map (fun r => r.name)).toFinset,
          orderUnits (groupRows rows nm) := by
  unfold mkTotals
  dsimp only
  rw [summaries_map_sum]
  rfl

/-- The grand cost total, as a rounded sum of rounded per-order costs over
order names. -/
theorem mkTotals_cost (cfg : Config) (rows : List Row) :
    (mkTotals (orderSummaries cfg rows)).total_cost_bgn
      = round2 (∑ nm ∈ (rows.map (fun r => r.name)).toFinset,
          round2 (orderCost cfg (nunique (groupRows rows nm))
            (orderUnits (groupRows rows nm)))) := by
  unfold mkTotals
  dsimp only
  rw [summaries_map_sum]
  rfl

/-- Removing rows can only decrease the grand totals (non-negative
tariffs). -/
theorem totals_mono {cfg : Config} (h1 : 0 ≤ cfg.first_sku_cost)
    (h2 : 0 ≤ cfg.next_sku_cost) (h3 : 0 ≤ cfg.unit_cost)
    {rows' rows : List Row} (h : List.Sublist rows' rows) :
    (mkTotals (orderSummaries cfg rows')).total_units
        ≤ (mkTotals (orderSummaries cfg rows)).total_units ∧
      (mkTotals (orderSummaries cfg rows')).total_cost_bgn
        ≤ (mkTotals (orderSummaries cfg rows)).total_cost_bgn := by
  have hFsub : (rows'.map (fun r => r.name)).toFinset
      ⊆ (rows.map (fun r => r.name)).toFinset := by
    intro x hx
    rw [List.mem_toFinset] at hx ⊢
    rcases List.mem_map.mp hx with ⟨r, hr, hname⟩
    exact List.mem_map.mpr ⟨r, h.subset hr, hname⟩
  constructor
  · rw [mkTotals_units, mkTotals_units]
    calc ∑ nm ∈ (rows'.map (fun r => r.name)).toFinset,
          orderUnits (groupRows rows' nm)
        ≤ ∑ nm ∈ (rows'.map (fun r => r.name)).toFinset,
            orderUnits (groupRows rows nm) :=
          Finset.sum_le_sum (fun nm _ => orderUnits_mono (groupRows_mono h nm))
      _ ≤ ∑ nm ∈ (rows.map (fun r => r.name)).toFinset,
            orderUnits (groupRows rows nm) :=
          Finset.sum_le_sum_of_subset hFsub
  · rw [mkTotals_cost, mkTotals_cost]
    refine round2_mono ?_
    calc ∑ nm ∈ (rows'.map (fun r => r.name)).toFinset,
          round2 (orderCost cfg (nunique (groupRows rows' nm))
            (orderUnits (groupRows rows' nm)))
        ≤ ∑ nm ∈ (rows'.map (fun r => r.name)).toFinset,
            round2 (orderCost cfg (nunique (groupRows rows nm))
              (orderUnits (groupRows rows nm))) :=
          Finset.sum_le_sum (fun nm _ => round2_mono
            (orderCost_mono h1 h2 h3 (nunique_mono (groupRows_mono h nm))
              (orderUnits_mono (groupRows_mono h nm))))
      _ ≤ ∑ nm ∈ (rows.map (fun r => r.name)).toFinset,
            round2 (orderCost cfg (nunique (groupRows rows nm))
              (orderUnits (groupRows rows nm))) :=
          Finset.sum_le_sum_of_subset_of_nonneg hFsub
            (fun nm _ _ => round2_nonneg (orderCost_nonneg h1 h2 h3 _ _))

/-! ### Facts about the validator loop -/

/-- The validator loop reports nothing exactly when every scanned column
is present. -/
theorem firstMissingAux_none_iff (cols : List String) :
    ∀ req : List String,
      (firstMissingAux cols req = Option.none ↔ ∀ c ∈ req, c ∈ cols)
  | [] => by simp [firstMissingAux]
  | a :: rest => by
    by_cases ha : a ∈ cols
    · simp [firstMissingAux, ha, firstMissingAux_none_iff cols rest]
    · simp [firstMissingAux, ha]

/-- When the validator loop reports a column, it is the first absent one
in scan order: all columns before it are present, and it is absent. -/
theorem firstMissingAux_some (cols : List String) :
    ∀ {req : List String} {c : String}, firstMissingAux cols req = some c →
      ∃ pre post, req = pre ++ c :: post
        ∧ (∀ d ∈ pre, d ∈ cols) ∧ c ∉ cols
  | [], c => by simp [firstMissingAux]
  | a :: rest, c => by
    intro h
    by_cases ha : a ∈ cols
    · rw [firstMissingAux, if_pos (List.elem_iff.mpr ha)] at h
      rcases firstMissingAux_some cols h with ⟨pre, post, heq, hpre, hc⟩
      refine ⟨a :: pre, post, by rw [heq]; rfl, ?_, hc⟩
      intro d hd
      rcases List.mem_cons.mp hd with hd | hd
      · rw [hd]
        exact ha
      · exact hpre d hd
    · rw [firstMissingAux,
        if_neg (fun hc => ha (List.elem_iff.mp hc))] at h
      injection h with h
      subst h
      refine ⟨[], rest, rfl, ?_, ha⟩
      intro d hd
      cases hd

/-! ## The claims -/

/-- C1 (corrected).  In the src/src/app variant the date stage works at
ORDER granularity, not line-item granularity: a row survives the date
stage exactly when it survived the earlier filters AND some row of the
same order (possibly a different one) carries a parseable in-range
timestamp; a surviving order therefore keeps its out-of-range line items.
Only the root-level src/calculator_logic.py variant filters at line-item
granularity, where a row survives exactly when its own timestamp is
parseable and in range. -/
theorem c1_date_granularity (s e : Int) (rows : List Row) (r : Row) :
    (r ∈ dateStage s e rows
        ↔ r ∈ rows ∧ ∃ r' ∈ rows, r'.name = r.name ∧ rowInRange s e r' = true)
      ∧ (r ∈ dateStageRoot s e rows
        ↔ r ∈ rows ∧ rowInRange s e r = true) := by
  refine ⟨mem_dateStage, ?_⟩
  unfold dateStageRoot
  rw [List.mem_filter, List.mem_filter]
  constructor
  · rintro ⟨⟨hr, -⟩, hir⟩
    exact ⟨hr, hir⟩
  · rintro ⟨hr, hir⟩
    exact ⟨⟨hr, rowInRange_isSome hir⟩, hir⟩

/-- C1, counterexample to the claim as stated: with a date range of day 0
only, the line item of the single order timestamped 99999999 (outside the
range) is NOT removed — it stays in the surviving row set and in
`line_items`, and the order's N counts its SKU (N = 2) and its quantity
(Q = 5), because another line item of the same order is in range. -/
theorem c1_counterexample :
    inRange 0 0 99999999 = false ∧
      calculate_costs ⟨10, 5, 2⟩ (.date 0) (.date 0) []
          ⟨required_columns,
            [⟨"#1", "fulfilled", some "SKU-A", "A", 2, some 100⟩,
             ⟨"#1", "fulfilled", some "SKU-B", "B", 3, some 99999999⟩]⟩
        = .ok ⟨1, 5, 25, 1278 / 100⟩
            [⟨"#1", 2, 5, 25⟩]
            [⟨"#1", "fulfilled", some "SKU-A", "A", 2, some 100⟩,
             ⟨"#1", "fulfilled", some "SKU-B", "B", 3, some 99999999⟩] := by
  constructor
  · decide
  · simp [calculate_costs, firstMissing, firstMissingAux, required_columns,
      statusFilter, skuFilter, dateStage, rowInRange, inRange, finishCalc,
      orderSummaries, summaryOf, uniqueKeys, groupRows, nunique, orderUnits,
      orderCost, mkTotals, round2, rhe, PyStr.truthy, PyStr.day?,
      EUR_TO_BGN_RATE, skuIsIn]
    norm_num [Int.fract, Int.floor_eq_iff]

/-- C2 (corrected).  The SKU-exclusion stage drops exactly the rows whose
`sku` is an exact string match of a member of the USER-SUPPLIED list
alone; there is no built-in set of always-excluded virtual/service SKUs
(equivalently, the built-in set is empty), and a row whose sku cell is
missing (NaN) is never dropped by this stage. -/
theorem c2_exclusion_user_set_only (excl : List String) (rows : List Row)
    (r : Row) :
    r ∈ skuFilter excl rows
      ↔ r ∈ rows ∧ ¬∃ s, r.sku = some s ∧ s ∈ excl := by
  rw [mem_skuFilter]
  constructor
  · rintro ⟨hr, hf⟩
    refine ⟨hr, fun hex => ?_⟩
    rw [(skuIsIn_iff r.sku excl).mpr hex] at hf
    cases hf
  · rintro ⟨hr, hne⟩
    refine ⟨hr, ?_⟩
    cases hb : skuIsIn r.sku excl
    · rfl
    · exact absurd ((skuIsIn_iff r.sku excl).mp hb) hne

/-- C2, counterexample to the claim as stated: a run with NO user-supplied
exclusions keeps a row whose SKU is the repository's own canonical example
of a virtual/service SKU (`VIRTUAL-01`, the GUI placeholder text) and
prices it — no built-in exclusion set exists. -/
theorem c2_counterexample :
    calculate_costs ⟨10, 5, 2⟩ .none .none []
        ⟨required_columns,
          [⟨"#1", "fulfilled", some "VIRTUAL-01", "Shipping Protection", 1,
            some 100⟩]⟩
      = .ok ⟨1, 1, 12, 614 / 100⟩
          [⟨"#1", 1, 1, 12⟩]
          [⟨"#1", "fulfilled", some "VIRTUAL-01", "Shipping Protection", 1,
            some 100⟩] := by
  simp [calculate_costs, firstMissing, firstMissingAux, required_columns,
    statusFilter, skuFilter, dateStage, rowInRange, inRange, finishCalc,
    orderSummaries, summaryOf, uniqueKeys, groupRows, nunique, orderUnits,
    orderCost, mkTotals, round2, rhe, PyStr.truthy, PyStr.day?,
    EUR_TO_BGN_RATE, skuIsIn]
  norm_num [Int.fract, Int.floor_eq_iff]

/-- C3 (confirmed).  Every emitted order summary carries exactly the
tariff-formula cost
`(N ≥ 1 ? first_sku_cost : 0) + (N > 1 ? (N−1)·next_sku_cost : 0)
 + Q·unit_cost`, rounded to two decimals. -/
theorem c3_cost_formula {cfg : Config} {rows : List Row} {o : OrderSummary}
    (h : o ∈ orderSummaries cfg rows) :
    o.costBgn = round2
      ((if 1 ≤ o.uniqueSkus then cfg.first_sku_cost else 0)
        + (if 1 < o.uniqueSkus then
            ((o.uniqueSkus - 1 : Nat) : ℚ) * cfg.next_sku_cost else 0)
        + (o.totalUnits : ℚ) * cfg.unit_cost) := by
  rcases List.mem_map.mp h with ⟨nm, hnm, rfl⟩
  show round2 (orderCost cfg _ _) = _
  rw [orderCost_def]
  rfl

/-- C3, witness: the summary of an order with two distinct SKUs and five
units under tariffs (10, 5, 2) satisfies the formula with cost 25. -/
theorem c3_cost_formula_witness :
    (OrderSummary.mk "#1" 2 5 25).costBgn = round2
      ((if 1 ≤ (OrderSummary.mk "#1" 2 5 25).uniqueSkus
          then (Config.mk 10 5 2).first_sku_cost else 0)
        + (if 1 < (OrderSummary.mk "#1" 2 5 25).uniqueSkus then
            (((OrderSummary.mk "#1" 2 5 25).uniqueSkus - 1 : Nat) : ℚ)
              * (Config.mk 10 5 2).next_sku_cost else 0)
        + ((OrderSummary.mk "#1" 2 5 25).totalUnits : ℚ)
            * (Config.mk 10 5 2).unit_cost) :=
  @c3_cost_formula ⟨10, 5, 2⟩
    [⟨"#1", "fulfilled", some "SKU-A", "A", 2, some 100⟩,
     ⟨"#1", "fulfilled", some "SKU-B", "B", 3, some 99999999⟩]
    ⟨"#1", 2, 5, 25⟩
    (by
      simp [orderSummaries, summaryOf, uniqueKeys, groupRows, nunique,
        orderUnits, orderCost, round2, rhe]
      norm_num [Int.fract, Int.floor_eq_iff])

/-- C4 (corrected).  An emitted summary has N ≥ 1 exactly when some
surviving row of the order has a NON-MISSING sku value (an empty string
counts, a NaN cell does not, because pandas `nunique` drops NaN); hence an
order whose surviving rows all have missing SKUs appears in
`order_summaries` with N = 0 and does reach the cost engine.  Every
emitted summary does come from at least one surviving row, so an order
whose rows were all removed by exclusion appears in no summary. -/
theorem c4_n_of_summaries {cfg : Config} {rows : List Row}
    {o : OrderSummary} (h : o ∈ orderSummaries cfg rows) :
    (1 ≤ o.uniqueSkus
        ↔ ∃ r ∈ rows, r.name = o.name ∧ r.sku.isSome = true)
      ∧ ∃ r ∈ rows, r.name = o.name := by
  rcases List.mem_map.mp h with ⟨nm, hnm, rfl⟩
  rw [mem_uniqueKeys] at hnm
  rcases List.mem_map.mp hnm with ⟨r0, hr0, hname⟩
  dsimp only [summaryOf]
  constructor
  · show 0 < (uniqueKeys ((groupRows rows nm).filterMap fun r => r.sku)).length ↔ _
    rw [List.length_pos_iff_exists_mem]
    constructor
    · rintro ⟨x, hx⟩
      rw [mem_uniqueKeys] at hx
      rcases List.mem_filterMap.mp hx with ⟨r, hrg, hsku⟩
      rcases List.mem_filter.mp hrg with ⟨hr, hbeq⟩
      refine ⟨r, hr, by simpa using hbeq, ?_⟩
      rw [hsku]
      rfl
    · rintro ⟨r, hr, hrname, hsome⟩
      rcases Option.isSome_iff_exists.mp hsome with ⟨x, hx⟩
      refine ⟨x, ?_⟩
      rw [mem_uniqueKeys]
      exact List.mem_filterMap.mpr
        ⟨r, List.mem_filter.mpr ⟨hr, by simpa using hrname⟩, hx⟩
  · exact ⟨r0, hr0, hname⟩

/-- C4, witness: for an order whose one surviving row has sku `SKU-A`,
the equivalence and the existence of a source row hold. -/
theorem c4_n_of_summaries_witness :
    (1 ≤ (OrderSummary.mk "#1" 1 2 14).uniqueSkus
        ↔ ∃ r ∈ [Row.mk "#1" "fulfilled" (some "SKU-A") "A" 2 (some 100)],
            r.name = (OrderSummary.mk "#1" 1 2 14).name ∧ r.sku.isSome = true)
      ∧ ∃ r ∈ [Row.mk "#1" "fulfilled" (some "SKU-A") "A" 2 (some 100)],
          r.name = (OrderSummary.mk "#1" 1 2 14).name :=
  @c4_n_of_summaries ⟨10, 5, 2⟩
    [⟨"#1", "fulfilled", some "SKU-A", "A", 2, some 100⟩]
    ⟨"#1", 1, 2, 14⟩
    (by
      simp [orderSummaries, summaryOf, uniqueKeys, groupRows, nunique,
        orderUnits, orderCost, round2, rhe]
      norm_num [Int.fract, Int.floor_eq_iff])

/-- C4, counterexample to the claim as stated: an order whose only row has
a MISSING (NaN) sku cell is emitted with `unique_sku_count = 0` — it does
appear in `order_summaries` (and in `line_items` and the order count) and
reaches the cost engine, which prices it at `Q · unit_cost` only. -/
theorem c4_counterexample :
    calculate_costs ⟨10, 5, 2⟩ .none .none []
        ⟨required_columns,
          [⟨"#9", "fulfilled", Option.none, "X", 4, Option.none⟩]⟩
      = .ok ⟨1, 4, 8, 409 / 100⟩
          [⟨"#9", 0, 4, 8⟩]
          [⟨"#9", "fulfilled", Option.none, "X", 4, Option.none⟩] := by
  simp [calculate_costs, firstMissing, firstMissingAux, required_columns,
    statusFilter, skuFilter, dateStage, rowInRange, inRange, finishCalc,
    orderSummaries, summaryOf, uniqueKeys, groupRows, nunique, orderUnits,
    orderCost, mkTotals, round2, rhe, PyStr.truthy, PyStr.day?,
    EUR_TO_BGN_RATE, skuIsIn]
  norm_num [Int.fract, Int.floor_eq_iff]

/-- C5 (corrected).  The core performs NO tariff or date-pair validation:
for EVERY tariff configuration — negative costs included — and for every
date-argument pair that is either skipped (falsy) or parsable (an
end day before the start day included), a run on a table with the
required columns returns a success result, never a configuration
error. -/
theorem c5_no_config_validation (cfg : Config) {sd ed : PyStr}
    (excl : List String) (input : Table)
    (hm : firstMissing input.cols = Option.none)
    (hd : (sd.truthy && ed.truthy) = false
      ∨ ∃ ds de, sd = .date ds ∧ ed = .date de) :
    ∃ t s l, calculate_costs cfg sd ed excl input = .ok t s l := by
  rcases hd with hg | ⟨ds, de, rfl, rfl⟩
  · rw [calc_guard_false hm hg, finishCalc_eq]
    exact ⟨_, _, _, rfl⟩
  · rw [calc_dates hm ds de, finishCalc_eq]
    exact ⟨_, _, _, rfl⟩

/-- C5, witness: a run with negative tariffs AND an end date before the
start date still succeeds. -/
theorem c5_no_config_validation_witness :
    ∃ t s l,
      calculate_costs ⟨-5, -1, -2⟩ (.date 10) (.date 3) []
          ⟨required_columns,
            [⟨"#1", "fulfilled", some "SKU-A", "A", 2, some 100⟩]⟩
        = .ok t s l :=
  c5_no_config_validation ⟨-5, -1, -2⟩ []
    ⟨required_columns, [⟨"#1", "fulfilled", some "SKU-A", "A", 2, some 100⟩]⟩
    (by decide) (Or.inr ⟨10, 3, rfl, rfl⟩)

/-- C5, counterexample to the claim as stated: a run with a negative
`first_sku_cost` is not rejected — it produces summary values (a negative
order cost of −1.00), and a run whose end date lies before its start date
returns a zero-valued success, not an `InvalidConfigurationError`. -/
theorem c5_counterexample :
    calculate_costs ⟨-5, 5, 2⟩ .none .none []
        ⟨required_columns,
          [⟨"#1", "fulfilled", some "SKU-A", "A", 2, some 100⟩]⟩
      = .ok ⟨1, 2, -1, -51 / 100⟩
          [⟨"#1", 1, 2, -1⟩]
          [⟨"#1", "fulfilled", some "SKU-A", "A", 2, some 100⟩]
    ∧ calculate_costs ⟨10, 5, 2⟩ (.date 10) (.date 3) []
        ⟨required_columns,
          [⟨"#1", "fulfilled", some "SKU-A", "A", 2, some 100⟩]⟩
      = .ok ⟨0, 0, 0, 0⟩ [] [] := by
  constructor
  · simp [calculate_costs, firstMissing, firstMissingAux, required_columns,
      statusFilter, skuFilter, dateStage, rowInRange, inRange, finishCalc,
      orderSummaries, summaryOf, uniqueKeys, groupRows, nunique, orderUnits,
      orderCost, mkTotals, round2, rhe, PyStr.truthy, PyStr.day?,
      EUR_TO_BGN_RATE, skuIsIn]
    norm_num [Int.fract, Int.floor_eq_iff]
  · simp [calculate_costs, firstMissing, firstMissingAux, required_columns,
      statusFilter, skuFilter, dateStage, rowInRange, inRange, finishCalc,
      orderSummaries, summaryOf, uniqueKeys, groupRows, nunique, orderUnits,
      orderCost, mkTotals, round2, rhe, PyStr.truthy, PyStr.day?,
      EUR_TO_BGN_RATE, skuIsIn]

/-- C6 (corrected).  A row with an absent or unparsable `fulfilled_at` is
only dropped when a date range is actually supplied: in a date-agnostic
run (either date argument absent or empty), every row that passes the
status and SKU filters lands in the surviving line items — and is hence
counted in its order's N, Q and the totals — regardless of its
`fulfilled_at` value, even though the date column is always required. -/
theorem c6_dateless_rows_counted {cfg : Config} {sd ed : PyStr}
    {excl : List String} {input : Table} {t : Totals}
    {s : List OrderSummary} {l : List Row}
    (hg : (sd.truthy && ed.truthy) = false)
    (h : calculate_costs cfg sd ed excl input = .ok t s l)
    {r : Row} (hr : r ∈ input.rows)
    (hst : r.fulfillmentStatus = "fulfilled")
    (hsku : skuIsIn r.sku excl = false) :
    r ∈ l := by
  rcases calc_ok_eq h with ⟨hm, -⟩
  rw [calc_guard_false hm hg, finishCalc_eq] at h
  injection h with hT hS hL
  rw [← hL]
  exact mem_skuFilter.mpr
    ⟨List.mem_filter.mpr ⟨hr, by simpa using hst⟩, hsku⟩

/-- C6, witness: in a run without dates, a fulfilled row
with a missing `fulfilled_at` is in the surviving line items. -/
theorem c6_dateless_rows_counted_witness :
    (Row.mk "#4" "fulfilled" (some "SKU-D") "D" 3 Option.none)
      ∈ [Row.mk "#4" "fulfilled" (some "SKU-D") "D" 3 Option.none] :=
  @c6_dateless_rows_counted ⟨10, 5, 2⟩ .none .none []
    ⟨required_columns,
      [⟨"#4", "fulfilled", some "SKU-D", "D", 3, Option.none⟩]⟩
    ⟨1, 3, 16, 818 / 100⟩ [⟨"#4", 1, 3, 16⟩]
    [⟨"#4", "fulfilled", some "SKU-D", "D", 3, Option.none⟩]
    rfl
    (by
      simp [calculate_costs, firstMissing, firstMissingAux, required_columns,
        statusFilter, skuFilter, dateStage, rowInRange, inRange, finishCalc,
        orderSummaries, summaryOf, uniqueKeys, groupRows, nunique, orderUnits,
        orderCost, mkTotals, round2, rhe, PyStr.truthy, PyStr.day?,
        EUR_TO_BGN_RATE, skuIsIn]
      norm_num [Int.fract, Int.floor_eq_iff])
    ⟨"#4", "fulfilled", some "SKU-D", "D", 3, Option.none⟩
    (List.mem_singleton.mpr rfl) rfl rfl

/-- C6, counterexample to the claim as stated: in a date-agnostic run the
line item with a MISSING `fulfilled_at` IS counted — it
contributes its SKU to N, its 3 units to Q and to `total_units`, and its
cost to the totals. -/
theorem c6_counterexample :
    calculate_costs ⟨10, 5, 2⟩ .none .none []
        ⟨required_columns,
          [⟨"#4", "fulfilled", some "SKU-D", "D", 3, Option.none⟩]⟩
      = .ok ⟨1, 3, 16, 818 / 100⟩
          [⟨"#4", 1, 3, 16⟩]
          [⟨"#4", "fulfilled", some "SKU-D", "D", 3, Option.none⟩] := by
  simp [calculate_costs, firstMissing, firstMissingAux, required_columns,
    statusFilter, skuFilter, dateStage, rowInRange, inRange, finishCalc,
    orderSummaries, summaryOf, uniqueKeys, groupRows, nunique, orderUnits,
    orderCost, mkTotals, round2, rhe, PyStr.truthy, PyStr.day?,
    EUR_TO_BGN_RATE, skuIsIn]
  norm_num [Int.fract, Int.floor_eq_iff]

/-- C7 (corrected).  The validator requires the FIXED six-column set
`required_columns` — `Fulfillment Status`, `Name`, `Lineitem quantity`,
`Lineitem sku`, `Lineitem name`, `Fulfilled at` — unconditionally, not
the minimal three-column set with a conditional `fulfilled_at`: the check
passes exactly when all six are present; when it fails it names the first
missing column in that fixed scan order and the run stops with that error
before any row is touched (the rows are arbitrary here). -/
theorem c7_validator (cfg : Config) (sd ed : PyStr) (excl : List String)
    (cols : List String) (rows : List Row) :
    (firstMissing cols = Option.none ↔ ∀ c ∈ required_columns, c ∈ cols)
      ∧ ∀ c, firstMissing cols = some c →
          c ∉ cols
            ∧ (∃ pre post, required_columns = pre ++ c :: post
                ∧ ∀ d ∈ pre, d ∈ cols)
            ∧ calculate_costs cfg sd ed excl ⟨cols, rows⟩
                = .error ("Missing required column: " ++ c) := by
  constructor
  · exact firstMissingAux_none_iff cols required_columns
  · intro c hc
    rcases firstMissingAux_some cols hc with ⟨pre, post, heq, hpre, hnc⟩
    refine ⟨hnc, ⟨pre, post, heq, hpre⟩, ?_⟩
    unfold calculate_costs
    dsimp only
    rw [hc]

/-- C7, witness: presenting only the claim's minimal column set
`{Name, Lineitem quantity, Lineitem sku}` to a date-agnostic run fails
with `Missing required column: Fulfillment Status`, the first entry of
the fixed scan order. -/
theorem c7_validator_witness :
    "Fulfillment Status" ∉ (["Name", "Lineitem quantity", "Lineitem sku"] : List String)
      ∧ (∃ pre post,
          required_columns = pre ++ "Fulfillment Status" :: post
            ∧ ∀ d ∈ pre,
                d ∈ (["Name", "Lineitem quantity", "Lineitem sku"] : List String))
      ∧ calculate_costs ⟨10, 5, 2⟩ .none .none []
            ⟨["Name", "Lineitem quantity", "Lineitem sku"], []⟩
          = .error ("Missing required column: " ++ "Fulfillment Status") :=
  (c7_validator ⟨10, 5, 2⟩ .none .none []
      ["Name", "Lineitem quantity", "Lineitem sku"] []).2
    "Fulfillment Status" (by decide)

/-- C7, counterexample to the claim as stated: a table carrying exactly
the claim's always-required set (order id, quantity, sku) is rejected in a
run with no date filtering and no status-filter configuration choice,
because `Fulfillment Status` (and `Lineitem name` and `Fulfilled at`) are
unconditionally required. -/
theorem c7_counterexample :
    calculate_costs ⟨10, 5, 2⟩ .none .none []
        ⟨["Name", "Lineitem quantity", "Lineitem sku"], []⟩
      = .error "Missing required column: Fulfillment Status" := by
  decide

/-- C8 (code bug in src/app.py).  The two calculator_logic.py variants
make the end boundary inclusive of the whole end day: a timestamp at
`end_date 23:59:59` is kept and one at `end_date+1 00:00:01` is dropped
(`inRange`, here with start day 0 and end day 5).  The web handler
src/app.py, which duplicates the same pipeline, omits the
23:59:59 adjustment, so the same `end_date 23:59:59` timestamp is
DROPPED there (`inRangeWeb`). -/
theorem c8_end_day_inclusivity :
    inRange 0 5 (5 * 86400 + 86399) = true
      ∧ inRangeWeb 0 5 (5 * 86400 + 86399) = false
      ∧ inRange 0 5 (6 * 86400 + 1) = false
      ∧ inRangeWeb 0 5 (6 * 86400 + 1) = false := by
  decide

/-- C9 (confirmed, for the data model's non-negative tariffs).  The
surviving line-item count never exceeds the validated row count, and
enlarging the excluded-SKU set (all other inputs fixed) never increases
`total_units` or the BGN `total_cost`. -/
theorem c9_filter_monotonicity {cfg : Config} (h1 : 0 ≤ cfg.first_sku_cost)
    (h2 : 0 ≤ cfg.next_sku_cost) (h3 : 0 ≤ cfg.unit_cost)
    {sd ed : PyStr} {E E' : List String} (hE : ∀ x ∈ E, x ∈ E')
    {input : Table} {t t' : Totals} {s s' : List OrderSummary}
    {l l' : List Row}
    (hrun : calculate_costs cfg sd ed E input = .ok t s l)
    (hrun' : calculate_costs cfg sd ed E' input = .ok t' s' l') :
    l.length ≤ input.rows.length
      ∧ t'.total_units ≤ t.total_units
      ∧ t'.total_cost_bgn ≤ t.total_cost_bgn := by
  rcases calc_ok_eq hrun with ⟨-, heq⟩
  rcases calc_ok_eq hrun' with ⟨-, heq'⟩
  rw [heq, finishCalc_eq] at hrun
  rw [heq', finishCalc_eq] at hrun'
  injection hrun with hT hS hL
  injection hrun' with hT' hS' hL'
  rw [← hT, ← hT', ← hL]
  have hmono := totals_mono h1 h2 h3 (effectiveRows_mono hE sd ed input.rows)
  exact ⟨(effectiveRows_sublist sd ed E input.rows).length_le,
    hmono.1, hmono.2⟩

/-- C9, witness: excluding `SKU-A` on a two-order table keeps the
surviving count within bounds (2 ≤ 2) and lowers the totals
(3 ≤ 5 units, 16 ≤ 30 BGN). -/
theorem c9_filter_monotonicity_witness :
    ([Row.mk "#1" "fulfilled" (some "SKU-A") "A" 2 (some 100),
      Row.mk "#2" "fulfilled" (some "SKU-B") "B" 3 (some 200)].length
        ≤ (Table.mk required_columns
            [Row.mk "#1" "fulfilled" (some "SKU-A") "A" 2 (some 100),
             Row.mk "#2" "fulfilled" (some "SKU-B") "B" 3 (some 200)]).rows.length)
      ∧ (Totals.mk 1 3 16 (818 / 100)).total_units
          ≤ (Totals.mk 2 5 30 (1534 / 100)).total_units
      ∧ (Totals.mk 1 3 16 (818 / 100)).total_cost_bgn
          ≤ (Totals.mk 2 5 30 (1534 / 100)).total_cost_bgn :=
  @c9_filter_monotonicity ⟨10, 5, 2⟩
    (by norm_num) (by norm_num) (by norm_num)
    .none .none [] ["SKU-A"] (by simp)
    ⟨required_columns,
      [⟨"#1", "fulfilled", some "SKU-A", "A", 2, some 100⟩,
       ⟨"#2", "fulfilled", some "SKU-B", "B", 3, some 200⟩]⟩
    ⟨2, 5, 30, 1534 / 100⟩ ⟨1, 3, 16, 818 / 100⟩
    [⟨"#1", 1, 2, 14⟩, ⟨"#2", 1, 3, 16⟩] [⟨"#2", 1, 3, 16⟩]
    [⟨"#1", "fulfilled", some "SKU-A", "A", 2, some 100⟩,
     ⟨"#2", "fulfilled", some "SKU-B", "B", 3, some 200⟩]
    [⟨"#2", "fulfilled", some "SKU-B", "B", 3, some 200⟩]
    (by
      simp [calculate_costs, firstMissing, firstMissingAux, required_columns,
        statusFilter, skuFilter, dateStage, rowInRange, inRange, finishCalc,
        orderSummaries, summaryOf, uniqueKeys, groupRows, nunique, orderUnits,
        orderCost, mkTotals, round2, rhe, PyStr.truthy, PyStr.day?,
        EUR_TO_BGN_RATE, skuIsIn]
      norm_num [Int.fract, Int.floor_eq_iff])
    (by
      simp [calculate_costs, firstMissing, firstMissingAux, required_columns,
        statusFilter, skuFilter, dateStage, rowInRange, inRange, finishCalc,
        orderSummaries, summaryOf, uniqueKeys, groupRows, nunique, orderUnits,
        orderCost, mkTotals, round2, rhe, PyStr.truthy, PyStr.day?,
        EUR_TO_BGN_RATE, skuIsIn]
      norm_num [Int.fract, Int.floor_eq_iff])

/-- C10 (confirmed).  When at most one of the two date arguments is
truthy (the other absent or an empty string), the run is identical to a
run invoked with no dates at all: no date filtering, no error about the
incomplete pair. -/
theorem c10_single_date_ignored (cfg : Config) (excl : List String)
    (input : Table) {sd ed : PyStr}
    (hg : (sd.truthy && ed.truthy) = false) :
    calculate_costs cfg sd ed excl input
      = calculate_costs cfg .none .none excl input := by
  rcases hm : firstMissing input.cols with _ | c
  · rw [calc_guard_false hm hg,
      @calc_guard_false cfg excl input hm PyStr.none PyStr.none rfl]
  · unfold calculate_costs
    rw [hm]

/-- C10, witness: supplying only a start date behaves exactly like
supplying no dates. -/
theorem c10_single_date_ignored_witness :
    calculate_costs ⟨10, 5, 2⟩ (.date 5) .none []
        ⟨required_columns,
          [⟨"#1", "fulfilled", some "SKU-A", "A", 2, some 100⟩]⟩
      = calculate_costs ⟨10, 5, 2⟩ .none .none []
          ⟨required_columns,
            [⟨"#1", "fulfilled", some "SKU-A", "A", 2, some 100⟩]⟩ :=
  c10_single_date_ignored ⟨10, 5, 2⟩ []
    ⟨required_columns, [⟨"#1", "fulfilled", some "SKU-A", "A", 2, some 100⟩]⟩
    rfl

end InvoicePrep
